import Mathlib

/-
Verification of the event ingestion pipeline (Go sources under src/):
a Kafka consumer that validates envelopes, dispatches them by type,
persists them into MS SQL via per-entity upserts, and routes failures
to a Redis dead-letter queue.  JSON values are embedded structurally
(a Go value of type map/string/number/bool as produced by
encoding/json.Unmarshal into interface, with instants modelled as
integer timestamps); each Go function of interest is translated into
a Lean definition over that embedding.
-/

namespace Pipeline

/-- Structural model of a decoded JSON value, as Go's encoding/json
produces into an interface value: strings, numbers, booleans, null,
arrays and objects.  Go time.Time values and numeric payload values
are both modelled through num over Int (the claims under study never
depend on fractional parts).  Objects are association lists; Go map
semantics reads the first binding of a key (a map has at most one). -/
inductive JVal where
  | str (s : String)
  | num (n : Int)
  | bool (b : Bool)
  | null
  | arr (elems : List JVal)
  | obj (fields : List (String × JVal))

/-- A decoded JSON object: what json.Unmarshal into a Go map yields. -/
abbrev Jobj := List (String × JVal)

/-- Lookup of a key in a decoded object, Go map indexing with the
comma-ok idiom: some v when the key is bound, none otherwise. -/
def jlookup (m : Jobj) (k : String) : Option JVal :=
  match m with
  | [] => none
  | (k₀, v) :: rest => if k₀ = k then some v else jlookup rest k

/-- Field access on a JSON value that is an object; none on any other
shape (the Go type assertion payload.(map) combined with indexing). -/
def getField (v : JVal) (k : String) : Option JVal :=
  match v with
  | .obj m => jlookup m k
  | _ => none

/-- Translation of Consumer.ParseEvent (src/internal/kafka/consumer.go).
The argument is the outcome of json.Unmarshal into a map: none when the
bytes are not a valid JSON object, some event otherwise.  The Go code
then rejects the event when eventId, type or data is absent. -/
def ParseEvent (unmarshalled : Option Jobj) : Except String Jobj :=
  match unmarshalled with
  | none => .error "failed to unmarshal event"
  | some event =>
    if (jlookup event "eventId").isNone then .error "eventId field is required"
    else if (jlookup event "type").isNone then .error "type field is required"
    else if (jlookup event "data").isNone then .error "data field is required"
    else .ok event

/-- Translation of Producer.extractKey (producer source, src/unnamed/part_001):
the partition key is the business identifier selected by the event type. -/
def extractKey (event : JVal) : Except String String :=
  match event with
  | .obj eventMap =>
    match jlookup eventMap "type" with
    | some (.str eventType) =>
      match jlookup eventMap "data" with
      | some (.obj data) =>
        if eventType = "UserCreated" then
          match jlookup data "userId" with
          | some (.str userID) => .ok userID
          | _ => .error "userId not found in UserCreated event"
        else if eventType = "OrderPlaced" then
          match jlookup data "orderId" with
          | some (.str orderID) => .ok orderID
          | _ => .error "orderId not found in OrderPlaced event"
        else if eventType = "PaymentSettled" then
          match jlookup data "orderId" with
          | some (.str orderID) => .ok orderID
          | _ => .error "orderId not found in PaymentSettled event"
        else if eventType = "InventoryAdjusted" then
          match jlookup data "sku" with
          | some (.str sku) => .ok sku
          | _ => .error "sku not found in InventoryAdjusted event"
        else if eventType = "ProductReview" then
          match jlookup data "reviewId" with
          | some (.str reviewID) => .ok reviewID
          | _ => .error "reviewId not found in ProductReview event"
        else .error ("unknown event type: " ++ eventType)
      | _ => .error "event data is not a map"
    | _ => .error "event type is not a string"
  | _ => .error "event is not a map"

/-- The producer-side whitelist of event types (validTypes map in
src/cmd/producer/main.go validateEvent): only four kinds are present. -/
def validTypes (t : String) : Bool :=
  t = "UserCreated" || t = "OrderPlaced" || t = "PaymentSettled" ||
    t = "InventoryAdjusted"

/-- Translation of validateEvent (src/cmd/producer/main.go): envelope
field presence, type whitelist, data shape, and per-type required data
fields; the final fall-through mirrors the Go switch with no default. -/
def validateEvent (event : Jobj) : Except String Unit :=
  if (jlookup event "eventId").isNone then .error "eventId is required"
  else if (jlookup event "type").isNone then .error "type is required"
  else if (jlookup event "timestamp").isNone then .error "timestamp is required"
  else if (jlookup event "data").isNone then .error "data is required"
  else
    match jlookup event "type" with
    | some (.str eventType) =>
      if !(validTypes eventType) then
        .error ("invalid event type: " ++ eventType)
      else
        match jlookup event "data" with
        | some (.obj data) =>
          if eventType = "UserCreated" then
            if (jlookup data "userId").isNone then
              .error "userId is required for UserCreated event"
            else if (jlookup data "name").isNone then
              .error "name is required for UserCreated event"
            else if (jlookup data "email").isNone then
              .error "email is required for UserCreated event"
            else .ok ()
          else if eventType = "OrderPlaced" then
            if (jlookup data "orderId").isNone then
              .error "orderId is required for OrderPlaced event"
            else if (jlookup data "userId").isNone then
              .error "userId is required for OrderPlaced event"
            else if (jlookup data "total").isNone then
              .error "total is required for OrderPlaced event"
            else .ok ()
          else if eventType = "PaymentSettled" then
            if (jlookup data "orderId").isNone then
              .error "orderId is required for PaymentSettled event"
            else if (jlookup data "status").isNone then
              .error "status is required for PaymentSettled event"
            else if (jlookup data "amount").isNone then
              .error "amount is required for PaymentSettled event"
            else .ok ()
          else if eventType = "InventoryAdjusted" then
            if (jlookup data "sku").isNone then
              .error "sku is required for InventoryAdjusted event"
            else if (jlookup data "delta").isNone then
              .error "delta is required for InventoryAdjusted event"
            else .ok ()
          else .ok ()
        | _ => .error "data must be an object"
    | _ => .error "type must be a string"

/-- Translation of extractEventID (dlq source, src/unnamed/part_001):
read eventId from the payload when it is an object carrying a string
under that key, otherwise fall back to the literal "unknown". -/
def extractEventID (payload : JVal) : String :=
  match payload with
  | .obj payloadMap =>
    match jlookup payloadMap "eventId" with
    | some (.str eventID) => eventID
    | _ => "unknown"
  | _ => "unknown"

/-- Redis key used by the DLQ for a source topic: dlq:topic. -/
def dlqKey (topic : String) : String := "dlq:" ++ topic

/-- State of the Redis instance backing the DLQ: each key holds a list
of stored values, head = most recently pushed.  Serialisation to bytes
is modelled structurally: the list stores the marshalled record as the
JSON structure it denotes. -/
abbrev RedisState := String → List JVal

/-- Redis LPUSH of a single value: prepend to the list at the key. -/
def lpush (st : RedisState) (k : String) (v : JVal) : RedisState :=
  fun q => if q = k then v :: st q else st q

/-- Redis LRANGE over a stored list, with the documented index
semantics: negative indices count from the end, the range is inclusive
and clamped, an inverted range is empty. -/
def lrange (l : List JVal) (start stop : Int) : List JVal :=
  let n : Int := (l.length : Int)
  let s : Int := if start < 0 then max (n + start) 0 else start
  let e : Int := if stop < 0 then n + stop else stop
  if e < s then [] else (l.drop s.toNat).take (e - s + 1).toNat

/-- The dead-letter record constructed by RedisDLQ.PushMessage
(src/unnamed/part_001): a JSON object with the seven documented fields,
payload embedded as handed in, failedAt the current instant. -/
def dlqRecord (topic : String) (part offset : Int) (payload : JVal)
    (errorMsg : String) (now : Int) : JVal :=
  .obj [("eventId", .str (extractEventID payload)),
        ("topic", .str topic),
        ("partition", .num part),
        ("offset", .num offset),
        ("payload", payload),
        ("error", .str errorMsg),
        ("failedAt", .num now)]

/-- Translation of RedisDLQ.PushMessage: marshal the record and LPUSH
it onto the list at dlq:topic (newest first). -/
def PushMessage (st : RedisState) (topic : String) (part offset : Int)
    (payload : JVal) (errorMsg : String) (now : Int) : RedisState :=
  lpush st (dlqKey topic) (dlqRecord topic part offset payload errorMsg now)

/-- Translation of RedisDLQ.GetMessages: LRANGE over the list at
dlq:topic. -/
def GetMessages (st : RedisState) (topic : String) (start stop : Int) :
    List JVal :=
  lrange (st (dlqKey topic)) start stop

/-
Persistence layer (src/internal/store/mssql.go over the schema of
src/unnamed/part_000).  Each table is a list of rows; the upsert
statements are IF EXISTS ... UPDATE ... ELSE INSERT on the primary
key, so a table is modelled as the list of its rows and each upsert as
the corresponding transformer.  DECIMAL money columns are modelled as
Rat, DATETIME2 instants as Int.
-/

/-- Row of the users table. -/
structure User where
  user_id : String
  name : String
  email : String
  created_at : Int
  updated_at : Int
deriving DecidableEq

/-- Row of the orders table. -/
structure Order where
  order_id : String
  user_id : String
  total : Rat
  status : String
  created_at : Int
  updated_at : Int
deriving DecidableEq

/-- Row of the payments table. -/
structure Payment where
  order_id : String
  status : String
  amount : Rat
  settled_at : Int
  updated_at : Int
deriving DecidableEq

/-- Row of the inventory table.  As in the Go model, the Quantity field
of an incoming record carries the signed delta of the adjustment. -/
structure Inventory where
  sku : String
  quantity : Int
  last_adjusted_at : Int
deriving DecidableEq

/-- Row of the product_reviews table. -/
structure ProductReview where
  review_id : String
  product_name : String
  username : String
  rating : Int
  remarks : String
  created_at : Int
  updated_at : Int
deriving DecidableEq

/-- Effect of the per-entity UPDATE statement on one row: rows whose
key matches the incoming record get the UPDATE clause applied, other
rows are untouched. -/
def updRow (key : α → String) (upd : α → α → α) (x : α) (r : α) : α :=
  if key r == key x then upd r x else r

/-- Common shape of the five upsert statements: IF EXISTS a row with
the incoming key, apply the per-entity UPDATE to every row with that
key; ELSE INSERT the incoming row.  Each concrete upsert below is this
shape with its own key and UPDATE clause. -/
def upsertBy (key : α → String) (upd : α → α → α) (db : List α) (x : α) :
    List α :=
  if db.any (fun r => key r == key x) then db.map (updRow key upd x)
  else db ++ [x]

/-- UPDATE clause of UpsertUser: SET name, email, updated_at (created_at
is not in the SET list). -/
def updUser (r u : User) : User :=
  { r with name := u.name, email := u.email, updated_at := u.updated_at }

/-- Translation of MSSQLStore.UpsertUser. -/
def UpsertUser (db : List User) (u : User) : List User :=
  upsertBy (fun r => r.user_id) updUser db u

/-- UPDATE clause of UpsertOrder: SET user_id, total, status, updated_at
(created_at is not in the SET list). -/
def updOrder (r o : Order) : Order :=
  { r with user_id := o.user_id, total := o.total, status := o.status,
           updated_at := o.updated_at }

/-- Translation of MSSQLStore.UpsertOrder, together with the schema
constraint FK_Orders_Users (src/unnamed/part_000): a write whose
user_id is not a key of the users table fails and leaves the table
unchanged; this is the PersistenceError surfaced to the caller. -/
def UpsertOrder (userKeys : List String) (db : List Order) (o : Order) :
    Except String (List Order) :=
  if userKeys.contains o.user_id then
    .ok (upsertBy (fun r => r.order_id) updOrder db o)
  else .error "FOREIGN KEY constraint FK_Orders_Users violated"

/-- UPDATE clause of UpsertPayment: SET status, amount, settled_at,
updated_at (every non-key column is in the SET list). -/
def updPayment (r p : Payment) : Payment :=
  { r with status := p.status, amount := p.amount,
           settled_at := p.settled_at, updated_at := p.updated_at }

/-- Translation of MSSQLStore.UpsertPayment. -/
def UpsertPayment (db : List Payment) (p : Payment) : List Payment :=
  upsertBy (fun r => r.order_id) updPayment db p

/-- UPDATE clause of UpsertInventory: SET quantity = quantity + delta,
last_adjusted_at (the incoming Quantity field carries the delta). -/
def updInventory (r inv : Inventory) : Inventory :=
  { r with quantity := r.quantity + inv.quantity,
           last_adjusted_at := inv.last_adjusted_at }

/-- Translation of MSSQLStore.UpsertInventory: additive on quantity for
an existing sku, plain insert for a new one. -/
def UpsertInventory (db : List Inventory) (inv : Inventory) :
    List Inventory :=
  upsertBy (fun r => r.sku) updInventory db inv

/-- UPDATE clause of UpsertProductReview: SET product_name, username,
rating, remarks, updated_at (created_at is not in the SET list). -/
def updReview (r rv : ProductReview) : ProductReview :=
  { r with product_name := rv.product_name, username := rv.username,
           rating := rv.rating, remarks := rv.remarks,
           updated_at := rv.updated_at }

/-- Translation of MSSQLStore.UpsertProductReview, together with the
schema constraint CHECK (rating >= 1 AND rating <= 5)
(src/unnamed/part_000): a write with an out-of-range rating fails and
leaves the table unchanged. -/
def UpsertProductReview (db : List ProductReview) (rv : ProductReview) :
    Except String (List ProductReview) :=
  if rv.rating < 1 || 5 < rv.rating then
    .error "CHECK constraint on rating violated"
  else .ok (upsertBy (fun r => r.review_id) updReview db rv)

/-- State of the product_reviews table after attempting an upsert: the
new table on success, the unchanged table when the statement fails the
CHECK constraint. -/
def applyUpsertProductReview (db : List ProductReview)
    (rv : ProductReview) : List ProductReview :=
  match UpsertProductReview db rv with
  | .ok db2 => db2
  | .error _ => db

/-- A fetched Kafka message as the consumer service processMessage
function (cmd/consumer/main.go) receives it: its coordinates, the raw
value bytes, and the outcome of json.Unmarshal of those bytes into a
map (none when they are not a valid JSON object), which is what
ParseEvent consumes. -/
structure KMessage where
  topic : String
  partition : Int
  offset : Int
  raw : String
  value : Option Jobj

/-- Result of a Go call that may return a value, return an error, or
panic on a failed unchecked type assertion. -/
inductive GoResult (α : Type) where
  | ok (a : α)
  | err (msg : String)
  | panic

/-- Translation of parseTime (cmd/consumer/main.go): parse an RFC3339
string, falling back to the current instant on a missing field, a
non-string value, or a parse failure.  The RFC3339 parser itself is an
external collaborator, abstracted as the tryParse argument. -/
def parseTime (tryParse : String → Option Int) (now : Int)
    (v : Option JVal) : Int :=
  match v with
  | some (.str s) =>
    match tryParse s with
    | some t => t
    | none => now
  | _ => now

/-- Translation of parseFloat64 (cmd/consumer/main.go): accept any
numeric shape, defaulting to 0 for a missing field or any other
value. -/
def parseFloat64 (v : Option JVal) : Rat :=
  match v with
  | some (.num n) => (n : Rat)
  | _ => 0

/-- Translation of parseInt (cmd/consumer/main.go): accept any numeric
shape, defaulting to 0 for a missing field or any other value. -/
def parseInt (v : Option JVal) : Int :=
  match v with
  | some (.num n) => n
  | _ => 0

/-- The five entity tables of the relational store, as one state. -/
structure Store where
  users : List User
  orders : List Order
  payments : List Payment
  inventory : List Inventory
  product_reviews : List ProductReview

/-- Translation of processEventByType (cmd/consumer/main.go): dispatch
on the type field, build the entity record using unchecked string type
assertions (which panic on a missing or non-string field), permissive
numeric and timestamp parsing, and hand it to the per-entity upsert;
an unknown type returns an error naming it.  The assertions
event["type"].(string) and event["data"].(map) panic likewise when the
present field has the wrong shape. -/
def processEventByType (tryParse : String → Option Int) (now : Int)
    (st : Store) (event : Jobj) : GoResult Store :=
  match jlookup event "type" with
  | some (.str eventType) =>
    match jlookup event "data" with
    | some (.obj data) =>
      if eventType = "UserCreated" then
        match jlookup data "userId", jlookup data "name",
            jlookup data "email" with
        | some (.str userID), some (.str name), some (.str email) =>
          let user : User :=
            ⟨userID, name, email,
              parseTime tryParse now (jlookup data "createdAt"), now⟩
          .ok { st with users := UpsertUser st.users user }
        | _, _, _ => .panic
      else if eventType = "OrderPlaced" then
        match jlookup data "orderId", jlookup data "userId" with
        | some (.str orderID), some (.str userID) =>
          let order : Order :=
            ⟨orderID, userID, parseFloat64 (jlookup data "total"),
              "placed", parseTime tryParse now (jlookup data "createdAt"),
              now⟩
          match UpsertOrder (st.users.map (fun u => u.user_id))
              st.orders order with
          | .ok orders2 => .ok { st with orders := orders2 }
          | .error e => .err e
        | _, _ => .panic
      else if eventType = "PaymentSettled" then
        match jlookup data "orderId", jlookup data "status" with
        | some (.str orderID), some (.str status) =>
          let payment : Payment :=
            ⟨orderID, status, parseFloat64 (jlookup data "amount"),
              parseTime tryParse now (jlookup data "settledAt"), now⟩
          .ok { st with payments := UpsertPayment st.payments payment }
        | _, _ => .panic
      else if eventType = "InventoryAdjusted" then
        match jlookup data "sku" with
        | some (.str sku) =>
          let inventory : Inventory :=
            ⟨sku, parseInt (jlookup data "delta"),
              parseTime tryParse now (jlookup data "adjustedAt")⟩
          .ok { st with inventory := UpsertInventory st.inventory inventory }
        | _ => .panic
      else if eventType = "ProductReview" then
        match jlookup data "reviewId", jlookup data "productName",
            jlookup data "username", jlookup data "remarks" with
        | some (.str reviewID), some (.str productName),
            some (.str username), some (.str remarks) =>
          let review : ProductReview :=
            ⟨reviewID, productName, username,
              parseInt (jlookup data "rating"), remarks,
              parseTime tryParse now (jlookup data "createdAt"), now⟩
          match UpsertProductReview st.product_reviews review with
          | .ok reviews2 => .ok { st with product_reviews := reviews2 }
          | .error e => .err e
        | _, _, _, _ => .panic
      else .err ("unknown event type: " ++ eventType)
    | _ => .panic
  | _ => .panic

/-- The stateful resources processMessage touches: the relational
store and the Redis instance behind the DLQ. -/
structure ProcState where
  store : Store
  redis : RedisState

/-- Terminal disposition of one envelope inside processMessage:
persisted successfully, dead-lettered, or aborted by a runtime panic
from an unchecked type assertion. -/
inductive ProcOutcome where
  | success
  | deadLettered
  | panicked
deriving DecidableEq

/-- What one processMessage invocation did: the resulting state, the
envelope disposition, and whether CommitMessage was invoked to advance
the partition offset for this message. -/
structure ProcResult where
  state : ProcState
  outcome : ProcOutcome
  committed : Bool

/-- Translation of processMessage (cmd/consumer/main.go): a parse
failure pushes the raw bytes to the DLQ (best-effort: dlqUp false
models an unavailable sink, whose push failure is logged and
swallowed) and then commits; next event["type"].(string) panics on a
present-but-non-string type; a dispatch or persistence error pushes
the parsed event to the DLQ (best-effort) and then commits; success
commits.  A panic aborts the invocation: no dead-letter, no commit, no
state change. -/
def processMessage (tryParse : String → Option Int) (now : Int)
    (dlqUp : Bool) (st : ProcState) (msg : KMessage) : ProcResult :=
  match ParseEvent msg.value with
  | .error e =>
    let redis2 :=
      if dlqUp then
        PushMessage st.redis msg.topic msg.partition msg.offset
          (JVal.str msg.raw) e now
      else st.redis
    { state := { st with redis := redis2 },
      outcome := .deadLettered, committed := true }
  | .ok event =>
    match jlookup event "type" with
    | some (.str _) =>
      match processEventByType tryParse now st.store event with
      | .ok store2 =>
        { state := { st with store := store2 },
          outcome := .success, committed := true }
      | .err e =>
        let redis2 :=
          if dlqUp then
            PushMessage st.redis msg.topic msg.partition msg.offset
              (JVal.obj event) e now
          else st.redis
        { state := { st with redis := redis2 },
          outcome := .deadLettered, committed := true }
      | .panic => { state := st, outcome := .panicked, committed := false }
    | _ => { state := st, outcome := .panicked, committed := false }

/-
Generic lemmas about the shared upsert shape.  The per-entity claims
are obtained by instantiating these with each entity's key projection
and UPDATE clause.
-/

theorem list_map_congr_mem {α β : Type} (f g : α → β) :
    ∀ l : List α, (∀ a ∈ l, f a = g a) → l.map f = l.map g := by
  intro l
  induction l with
  | nil => intro _; rfl
  | cons a t ih =>
    intro h
    simp only [List.map_cons]
    rw [h a (by simp), ih (fun b hb => h b (by simp [hb]))]

theorem list_map_eq_self_mem {α : Type} (f : α → α) :
    ∀ l : List α, (∀ a ∈ l, f a = a) → l.map f = l := by
  intro l
  induction l with
  | nil => intro _; rfl
  | cons a t ih =>
    intro h
    simp only [List.map_cons]
    rw [h a (by simp), ih (fun b hb => h b (by simp [hb]))]

theorem list_filter_nil_of {α : Type} (p : α → Bool) :
    ∀ l : List α, (∀ a ∈ l, p a = false) → l.filter p = [] := by
  intro l
  induction l with
  | nil => intro _; rfl
  | cons a t ih =>
    intro h
    have ha := h a (by simp)
    simp only [List.filter_cons, ha]
    exact ih (fun b hb => h b (by simp [hb]))

theorem list_length_filter_map {α β : Type} (f : α → β) (p : β → Bool) :
    ∀ l : List α,
      ((l.map f).filter p).length = (l.filter (fun a => p (f a))).length := by
  intro l
  induction l with
  | nil => rfl
  | cons a t ih =>
    simp only [List.map_cons, List.filter_cons]
    by_cases h : p (f a) = true
    · simp [h, ih]
    · simp [h, ih]

theorem list_filter_congr_mem {α : Type} (p q : α → Bool) :
    ∀ l : List α, (∀ a ∈ l, p a = q a) → l.filter p = l.filter q := by
  intro l
  induction l with
  | nil => intro _; rfl
  | cons a t ih =>
    intro h
    have ha := h a (by simp)
    simp only [List.filter_cons, ha]
    rw [ih (fun b hb => h b (by simp [hb]))]

/-- Under distinct keys, the rows matching a key are exactly one when
the key is present and none when it is absent. -/
theorem length_filter_key {α : Type} (key : α → String) (k : String) :
    ∀ db : List α, (db.map key).Nodup →
      (db.filter (fun r => key r == k)).length
        = (if db.any (fun r => key r == k) then 1 else 0) := by
  intro db
  induction db with
  | nil => intro _; rfl
  | cons a t ih =>
    intro hnd
    rw [List.map_cons, List.nodup_cons] at hnd
    obtain ⟨hka, hndt⟩ := hnd
    by_cases h : (key a == k) = true
    · have hk : key a = k := by simpa using h
      have ht : t.filter (fun r => key r == k) = [] := by
        apply list_filter_nil_of
        intro r hr
        by_contra hcon
        have hrk : key r = k := by
          cases hb : (key r == k) with
          | true => simpa using hb
          | false => exact absurd hb hcon
        exact hka (hk ▸ hrk ▸ List.mem_map_of_mem key hr)
      simp [List.filter_cons, List.any_cons, h, ht]
    · have hfalse : (key a == k) = false := by
        cases hb : (key a == k) with
        | true => exact absurd hb h
        | false => rfl
      simp [List.filter_cons, List.any_cons, hfalse, ih hndt]

/-- Two rows of a table with distinct keys that share a key are the
same row. -/
theorem key_inj_of_nodup {α : Type} (key : α → String) :
    ∀ db : List α, (db.map key).Nodup →
      ∀ a ∈ db, ∀ b ∈ db, key a = key b → a = b := by
  intro db
  induction db with
  | nil => intro _ a ha; exact absurd ha (by simp)
  | cons c t ih =>
    intro hnd a ha b hb hk
    rw [List.map_cons, List.nodup_cons] at hnd
    obtain ⟨hkc, hndt⟩ := hnd
    rcases List.mem_cons.mp ha with rfl | hat
    · rcases List.mem_cons.mp hb with rfl | hbt
      · rfl
      · exact absurd (hk ▸ List.mem_map_of_mem key hbt) hkc
    · rcases List.mem_cons.mp hb with rfl | hbt
      · exact absurd (hk ▸ List.mem_map_of_mem key hat) hkc
      · exact ih hndt a hat b hbt hk

theorem updRow_key {α : Type} {key : α → String} {upd : α → α → α} {x : α}
    (h1 : ∀ r, key (upd r x) = key r) (r : α) :
    key (updRow key upd x r) = key r := by
  unfold updRow
  by_cases h : (key r == key x) = true
  · simp [h, h1]
  · simp [h]

theorem updRow_updRow {α : Type} {key : α → String} {upd : α → α → α} {x : α}
    (h1 : ∀ r, key (upd r x) = key r)
    (h2 : ∀ r, upd (upd r x) x = upd r x) (r : α) :
    updRow key upd x (updRow key upd x r) = updRow key upd x r := by
  unfold updRow
  by_cases h : (key r == key x) = true
  · have hk : key (upd r x) = key r := h1 r
    simp [h, hk, h2]
  · simp [h]

theorem updRow_self {α : Type} {key : α → String} {upd : α → α → α} {x : α}
    (h3 : upd x x = x) : updRow key upd x x = x := by
  simp [updRow, h3]

/-- After an upsert, some row carries the incoming key. -/
theorem any_key_upsertBy {α : Type} {key : α → String} {upd : α → α → α}
    {x : α} (h1 : ∀ r, key (upd r x) = key r) (db : List α) :
    (upsertBy key upd db x).any (fun r => key r == key x) = true := by
  unfold upsertBy
  by_cases hP : db.any (fun r => key r == key x) = true
  · rw [if_pos hP]
    obtain ⟨r, hr, hpr⟩ := List.any_eq_true.mp hP
    apply List.any_eq_true.mpr
    refine ⟨updRow key upd x r, List.mem_map_of_mem _ hr, ?_⟩
    rw [updRow_key h1 r]
    exact hpr
  · rw [if_neg hP]
    apply List.any_eq_true.mpr
    exact ⟨x, by simp, by simp⟩

/-- When no stored row carries the incoming key, the upsert is a plain
insert of the incoming row at the end of the table. -/
theorem upsertBy_insert {α : Type} {key : α → String} {upd : α → α → α}
    {x : α} (db : List α) (h : ∀ r ∈ db, ¬ key r = key x) :
    upsertBy key upd db x = db ++ [x] := by
  unfold upsertBy
  rw [if_neg]
  intro hP
  obtain ⟨r, hr, hpr⟩ := List.any_eq_true.mp hP
  exact h r hr (by simpa using hpr)

/-- Applying the same upsert twice is the same as applying it once. -/
theorem upsertBy_idem {α : Type} {key : α → String} {upd : α → α → α}
    {x : α} (h1 : ∀ r, key (upd r x) = key r)
    (h2 : ∀ r, upd (upd r x) x = upd r x) (h3 : upd x x = x)
    (db : List α) :
    upsertBy key upd (upsertBy key upd db x) x = upsertBy key upd db x := by
  have hA := any_key_upsertBy h1 db
  have hstep : ∀ l : List α, l.any (fun r => key r == key x) = true →
      upsertBy key upd l x = l.map (updRow key upd x) := by
    intro l hl
    unfold upsertBy
    rw [if_pos hl]
  rw [hstep _ hA]
  unfold upsertBy
  by_cases hP : db.any (fun r => key r == key x) = true
  · rw [if_pos hP, List.map_map]
    exact list_map_congr_mem _ _ db (fun r _ => updRow_updRow h1 h2 r)
  · rw [if_neg hP, List.map_append]
    have hdb : db.map (updRow key upd x) = db := by
      apply list_map_eq_self_mem
      intro r hr
      have hfalse : (key r == key x) = false := by
        cases hb : (key r == key x) with
        | true =>
          exact absurd (List.any_eq_true.mpr ⟨r, hr, hb⟩) hP
        | false => rfl
      simp [updRow, hfalse]
    rw [hdb]
    simp [updRow_self h3]

/-- The keys of the table are unchanged by an upsert that hits the
UPDATE branch. -/
theorem map_key_upsertBy_update {α : Type} {key : α → String}
    {upd : α → α → α} {x : α} (h1 : ∀ r, key (upd r x) = key r)
    (db : List α) (hP : db.any (fun r => key r == key x) = true) :
    (upsertBy key upd db x).map key = db.map key := by
  unfold upsertBy
  rw [if_pos hP, List.map_map]
  exact list_map_congr_mem _ _ db (fun r _ => updRow_key h1 r)

/-- Distinctness of the keys of the table is preserved by every upsert. -/
theorem nodup_key_upsertBy {α : Type} {key : α → String}
    {upd : α → α → α} {x : α} (h1 : ∀ r, key (upd r x) = key r)
    (db : List α) (hnd : (db.map key).Nodup) :
    ((upsertBy key upd db x).map key).Nodup := by
  by_cases hP : db.any (fun r => key r == key x) = true
  · rw [map_key_upsertBy_update h1 db hP]
    exact hnd
  · unfold upsertBy
    rw [if_neg hP]
    simp only [List.map_append, List.map_cons, List.map_nil]
    refine (List.perm_append_singleton _ _).symm.nodup ?_
    rw [List.nodup_cons]
    refine ⟨?_, hnd⟩
    intro hmem
    obtain ⟨r, hr, hkr⟩ := List.mem_map.mp hmem
    exact hP (List.any_eq_true.mpr ⟨r, hr, by simp [hkr]⟩)

/-- Rows of the upserted table that carry the incoming key are either
the incoming row itself (INSERT branch) or the UPDATE clause applied to
a stored row with that key (UPDATE branch). -/
theorem mem_upsertBy_elim {α : Type} {key : α → String} {upd : α → α → α}
    {x : α} (db : List α) (r : α)
    (hr : r ∈ upsertBy key upd db x) (hk : key r = key x) :
    (r = x ∧ ∀ r₁ ∈ db, ¬ key r₁ = key x)
      ∨ ∃ r₀, r₀ ∈ db ∧ key r₀ = key x ∧ r = upd r₀ x := by
  unfold upsertBy at hr
  by_cases hP : db.any (fun r => key r == key x) = true
  · rw [if_pos hP] at hr
    obtain ⟨r₀, hr₀, hfr⟩ := List.mem_map.mp hr
    right
    by_cases hkr : (key r₀ == key x) = true
    · exact ⟨r₀, hr₀, by simpa using hkr, by rw [← hfr]; simp [updRow, hkr]⟩
    · exfalso
      have : updRow key upd x r₀ = r₀ := by simp [updRow, hkr]
      rw [this] at hfr
      rw [← hfr] at hk
      exact hkr (by simpa using hk)
  · rw [if_neg hP] at hr
    rcases List.mem_append.mp hr with hdb | hx
    · exfalso
      exact hP (List.any_eq_true.mpr ⟨r, hdb, by simpa using hk⟩)
    · left
      refine ⟨by simpa using hx, ?_⟩
      intro r₁ hr₁ hk₁
      exact hP (List.any_eq_true.mpr ⟨r₁, hr₁, by simpa using hk₁⟩)

/-- Every row of the upserted table comes from a stored row (touched by
the UPDATE clause or not) or is the inserted incoming row. -/
theorem mem_upsertBy_cases {α : Type} {key : α → String} {upd : α → α → α}
    {x : α} (db : List α) (r : α) (hr : r ∈ upsertBy key upd db x) :
    r ∈ db ∨ r = x ∨ ∃ r₀, r₀ ∈ db ∧ r = upd r₀ x := by
  unfold upsertBy at hr
  by_cases hP : db.any (fun r => key r == key x) = true
  · rw [if_pos hP] at hr
    obtain ⟨r₀, hr₀, hfr⟩ := List.mem_map.mp hr
    by_cases hkr : (key r₀ == key x) = true
    · right; right
      exact ⟨r₀, hr₀, by rw [← hfr]; simp [updRow, hkr]⟩
    · left
      have : updRow key upd x r₀ = r₀ := by simp [updRow, hkr]
      rw [this] at hfr
      exact hfr ▸ hr₀
  · rw [if_neg hP] at hr
    rcases List.mem_append.mp hr with hdb | hx
    · exact Or.inl hdb
    · exact Or.inr (Or.inl (by simpa using hx))

/-- A stored row with the incoming key turns, after the upsert, into
the UPDATE clause applied to it, and that row is in the new table. -/
theorem mem_upsertBy_intro {α : Type} {key : α → String} {upd : α → α → α}
    {x : α} (db : List α) (r₀ : α) (h : r₀ ∈ db) (hk : key r₀ = key x) :
    upd r₀ x ∈ upsertBy key upd db x := by
  unfold upsertBy
  have hP : db.any (fun r => key r == key x) = true :=
    List.any_eq_true.mpr ⟨r₀, h, by simpa using hk⟩
  rw [if_pos hP]
  have : updRow key upd x r₀ = upd r₀ x := by simp [updRow, hk]
  exact this ▸ List.mem_map_of_mem _ h

/-- Under distinct keys, an upsert leaves exactly one row carrying the
incoming key. -/
theorem count_key_upsertBy {α : Type} {key : α → String}
    {upd : α → α → α} {x : α} (h1 : ∀ r, key (upd r x) = key r)
    (db : List α) (hnd : (db.map key).Nodup) :
    ((upsertBy key upd db x).filter (fun r => key r == key x)).length
      = 1 := by
  have := length_filter_key key (key x) (upsertBy key upd db x)
    ?hnd
  · rw [this, if_pos (any_key_upsertBy h1 db)]
  case hnd => exact nodup_key_upsertBy h1 db hnd

/-
Claim theorems: envelope validation and producer-side key/validation.
-/

/-- C2 counterexample: a valid JSON object carrying eventId, type and
data but no timestamp field is accepted by ParseEvent, although the
claim requires an error when any of the four fields is missing. -/
theorem C2_counterexample :
    jlookup [("eventId", JVal.str "e1"), ("type", JVal.str "UserCreated"),
        ("data", JVal.obj [])] "timestamp" = none
    ∧ ParseEvent (some [("eventId", JVal.str "e1"),
        ("type", JVal.str "UserCreated"), ("data", JVal.obj [])])
      = Except.ok [("eventId", JVal.str "e1"),
        ("type", JVal.str "UserCreated"), ("data", JVal.obj [])] :=
  ⟨rfl, rfl⟩

/-- C2 (amended): ParseEvent returns an error if and only if the bytes
do not unmarshal to a JSON object or one of the three fields eventId,
type, data is missing; the timestamp field is not checked. -/
theorem C2_parseEvent_error_iff :
    (∀ e : Jobj, ParseEvent (some e) = Except.ok e ↔
      ((jlookup e "eventId").isSome = true
        ∧ (jlookup e "type").isSome = true
        ∧ (jlookup e "data").isSome = true))
    ∧ (∀ e : Jobj, (∃ msg, ParseEvent (some e) = Except.error msg) ↔
      ((jlookup e "eventId").isNone = true
        ∨ (jlookup e "type").isNone = true
        ∨ (jlookup e "data").isNone = true))
    ∧ (∃ msg, ParseEvent none = Except.error msg) := by
  refine ⟨?_, ?_, ⟨"failed to unmarshal event", rfl⟩⟩
  · intro e
    cases h1 : jlookup e "eventId" with
    | none => simp [ParseEvent, h1]
    | some v1 =>
      cases h2 : jlookup e "type" with
      | none => simp [ParseEvent, h1, h2]
      | some v2 =>
        cases h3 : jlookup e "data" with
        | none => simp [ParseEvent, h1, h2, h3]
        | some v3 => simp [ParseEvent, h1, h2, h3]
  · intro e
    cases h1 : jlookup e "eventId" with
    | none => simp [ParseEvent, h1]
    | some v1 =>
      cases h2 : jlookup e "type" with
      | none => simp [ParseEvent, h1, h2]
      | some v2 =>
        cases h3 : jlookup e "data" with
        | none => simp [ParseEvent, h1, h2, h3]
        | some v3 => simp [ParseEvent, h1, h2, h3]

/-- C2 witness: a fully populated envelope object is accepted. -/
theorem C2_parseEvent_error_iff_witness :
    ParseEvent (some [("eventId", JVal.str "e1"),
        ("type", JVal.str "UserCreated"),
        ("timestamp", JVal.str "2025-01-01T00:00:00Z"),
        ("data", JVal.obj [])])
      = Except.ok [("eventId", JVal.str "e1"),
        ("type", JVal.str "UserCreated"),
        ("timestamp", JVal.str "2025-01-01T00:00:00Z"),
        ("data", JVal.obj [])] :=
  (C2_parseEvent_error_iff.1 _).mpr ⟨rfl, rfl, rfl⟩

/-- C7: for an event whose type is a string and whose data is an
object, extractKey returns the business identifier selected by the
type — userId, orderId, orderId, sku, reviewId for the five known
types — whenever data carries it as a string, and an error for every
type string outside the five. -/
theorem C7_extractKey_partition_key :
    ∀ (em d : Jobj) (t : String),
      jlookup em "type" = some (JVal.str t) →
      jlookup em "data" = some (JVal.obj d) →
      ((∀ u, t = "UserCreated" → jlookup d "userId" = some (JVal.str u) →
          extractKey (JVal.obj em) = Except.ok u)
       ∧ (∀ o, t = "OrderPlaced" → jlookup d "orderId" = some (JVal.str o) →
          extractKey (JVal.obj em) = Except.ok o)
       ∧ (∀ o, t = "PaymentSettled" → jlookup d "orderId" = some (JVal.str o) →
          extractKey (JVal.obj em) = Except.ok o)
       ∧ (∀ s, t = "InventoryAdjusted" → jlookup d "sku" = some (JVal.str s) →
          extractKey (JVal.obj em) = Except.ok s)
       ∧ (∀ rv, t = "ProductReview" → jlookup d "reviewId" = some (JVal.str rv) →
          extractKey (JVal.obj em) = Except.ok rv)
       ∧ (t ≠ "UserCreated" → t ≠ "OrderPlaced" → t ≠ "PaymentSettled" →
          t ≠ "InventoryAdjusted" → t ≠ "ProductReview" →
          extractKey (JVal.obj em)
            = Except.error ("unknown event type: " ++ t))) := by
  intro em d t htype hdata
  refine ⟨?_, ?_, ?_, ?_, ?_, ?_⟩
  · intro u ht hu
    subst ht
    simp [extractKey, htype, hdata, hu]
  · intro o ht ho
    subst ht
    simp [extractKey, htype, hdata, ho]
  · intro o ht ho
    subst ht
    simp [extractKey, htype, hdata, ho]
  · intro s ht hs
    subst ht
    simp [extractKey, htype, hdata, hs]
  · intro rv ht hrv
    subst ht
    simp [extractKey, htype, hdata, hrv]
  · intro n1 n2 n3 n4 n5
    simp [extractKey, htype, hdata, n1, n2, n3, n4, n5]

/-- C7 witness: a UserCreated event is keyed by userId, and a bogus
type is rejected. -/
theorem C7_extractKey_partition_key_witness :
    extractKey (JVal.obj [("type", JVal.str "UserCreated"),
        ("data", JVal.obj [("userId", JVal.str "u1")])])
      = Except.ok "u1"
    ∧ extractKey (JVal.obj [("type", JVal.str "Bogus"),
        ("data", JVal.obj [])])
      = Except.error ("unknown event type: " ++ "Bogus") :=
  ⟨(C7_extractKey_partition_key
      [("type", JVal.str "UserCreated"),
       ("data", JVal.obj [("userId", JVal.str "u1")])]
      [("userId", JVal.str "u1")] "UserCreated" rfl rfl).1 "u1" rfl rfl,
   (C7_extractKey_partition_key
      [("type", JVal.str "Bogus"), ("data", JVal.obj [])]
      [] "Bogus" rfl rfl).2.2.2.2.2
     (by decide) (by decide) (by decide) (by decide) (by decide)⟩

/-- C8 counterexample: a fully populated ProductReview event, with all
four envelope fields and every documented data field present, is
rejected by the producer validateEvent with an error naming the type —
the claim asserts all five declared variants are accepted. -/
theorem C8_counterexample :
    validateEvent [("eventId", JVal.str "e9"),
        ("type", JVal.str "ProductReview"),
        ("timestamp", JVal.str "2025-01-01T00:00:00Z"),
        ("data", JVal.obj [("reviewId", JVal.str "r1"),
          ("productName", JVal.str "p"), ("username", JVal.str "u"),
          ("rating", JVal.num 5), ("remarks", JVal.str "ok"),
          ("createdAt", JVal.str "2025-01-01T00:00:00Z")])]
      = Except.error ("invalid event type: " ++ "ProductReview") := rfl

/-- C8 (amended): validateEvent accepts exactly the four whitelisted
variants UserCreated, OrderPlaced, PaymentSettled, InventoryAdjusted
when the four envelope fields and the per-type required data fields are
present, and returns an error naming the type for every type outside
the four — in particular ProductReview is rejected. -/
theorem C8_validateEvent_whitelist :
    ∀ (e d : Jobj) (t : String),
      (jlookup e "eventId").isSome = true →
      (jlookup e "timestamp").isSome = true →
      jlookup e "type" = some (JVal.str t) →
      jlookup e "data" = some (JVal.obj d) →
      ((validTypes t = false →
          validateEvent e = Except.error ("invalid event type: " ++ t))
       ∧ (t = "UserCreated" →
            (jlookup d "userId").isSome = true →
            (jlookup d "name").isSome = true →
            (jlookup d "email").isSome = true →
            validateEvent e = Except.ok ())
       ∧ (t = "OrderPlaced" →
            (jlookup d "orderId").isSome = true →
            (jlookup d "userId").isSome = true →
            (jlookup d "total").isSome = true →
            validateEvent e = Except.ok ())
       ∧ (t = "PaymentSettled" →
            (jlookup d "orderId").isSome = true →
            (jlookup d "status").isSome = true →
            (jlookup d "amount").isSome = true →
            validateEvent e = Except.ok ())
       ∧ (t = "InventoryAdjusted" →
            (jlookup d "sku").isSome = true →
            (jlookup d "delta").isSome = true →
            validateEvent e = Except.ok ())) := by
  intro e d t hid hts htype hdata
  obtain ⟨vid, hvid⟩ := Option.isSome_iff_exists.mp hid
  obtain ⟨vts, hvts⟩ := Option.isSome_iff_exists.mp hts
  refine ⟨?_, ?_, ?_, ?_, ?_⟩
  · intro hvt
    simp [validateEvent, hvid, hvts, htype, hdata, hvt]
  · intro ht h1 h2 h3
    subst ht
    obtain ⟨w1, hw1⟩ := Option.isSome_iff_exists.mp h1
    obtain ⟨w2, hw2⟩ := Option.isSome_iff_exists.mp h2
    obtain ⟨w3, hw3⟩ := Option.isSome_iff_exists.mp h3
    simp [validateEvent, hvid, hvts, htype, hdata, validTypes,
      hw1, hw2, hw3]
  · intro ht h1 h2 h3
    subst ht
    obtain ⟨w1, hw1⟩ := Option.isSome_iff_exists.mp h1
    obtain ⟨w2, hw2⟩ := Option.isSome_iff_exists.mp h2
    obtain ⟨w3, hw3⟩ := Option.isSome_iff_exists.mp h3
    simp [validateEvent, hvid, hvts, htype, hdata, validTypes,
      hw1, hw2, hw3]
  · intro ht h1 h2 h3
    subst ht
    obtain ⟨w1, hw1⟩ := Option.isSome_iff_exists.mp h1
    obtain ⟨w2, hw2⟩ := Option.isSome_iff_exists.mp h2
    obtain ⟨w3, hw3⟩ := Option.isSome_iff_exists.mp h3
    simp [validateEvent, hvid, hvts, htype, hdata, validTypes,
      hw1, hw2, hw3]
  · intro ht h1 h2
    subst ht
    obtain ⟨w1, hw1⟩ := Option.isSome_iff_exists.mp h1
    obtain ⟨w2, hw2⟩ := Option.isSome_iff_exists.mp h2
    simp [validateEvent, hvid, hvts, htype, hdata, validTypes,
      hw1, hw2]

/-- C8 witness: a fully populated UserCreated event is accepted and a
fully populated ProductReview event is rejected by name. -/
theorem C8_validateEvent_whitelist_witness :
    validateEvent [("eventId", JVal.str "e1"),
        ("type", JVal.str "UserCreated"),
        ("timestamp", JVal.str "2025-01-01T00:00:00Z"),
        ("data", JVal.obj [("userId", JVal.str "u1"),
          ("name", JVal.str "A"), ("email", JVal.str "a@x.com")])]
      = Except.ok ()
    ∧ validateEvent [("eventId", JVal.str "e2"),
        ("type", JVal.str "ProductReview"),
        ("timestamp", JVal.str "2025-01-01T00:00:00Z"),
        ("data", JVal.obj [("reviewId", JVal.str "r1")])]
      = Except.error ("invalid event type: " ++ "ProductReview") :=
  ⟨(C8_validateEvent_whitelist
      [("eventId", JVal.str "e1"), ("type", JVal.str "UserCreated"),
       ("timestamp", JVal.str "2025-01-01T00:00:00Z"),
       ("data", JVal.obj [("userId", JVal.str "u1"),
         ("name", JVal.str "A"), ("email", JVal.str "a@x.com")])]
      [("userId", JVal.str "u1"), ("name", JVal.str "A"),
       ("email", JVal.str "a@x.com")]
      "UserCreated" rfl rfl rfl rfl).2.1 rfl rfl rfl rfl,
   (C8_validateEvent_whitelist
      [("eventId", JVal.str "e2"), ("type", JVal.str "ProductReview"),
       ("timestamp", JVal.str "2025-01-01T00:00:00Z"),
       ("data", JVal.obj [("reviewId", JVal.str "r1")])]
      [("reviewId", JVal.str "r1")] "ProductReview" rfl rfl rfl rfl).1 rfl⟩

/-- LRANGE over the full range 0..-1 returns the whole stored list. -/
theorem lrange_all (l : List JVal) : lrange l 0 (-1) = l := by
  unfold lrange
  dsimp only
  have hs : ¬ ((0:Int) < 0) := by omega
  have he : (-1:Int) < 0 := by omega
  rw [if_neg hs, if_pos he]
  cases l with
  | nil => rfl
  | cons a t =>
    have hcond : ¬ (((a :: t).length : Int) + -1 < 0) := by
      simp only [List.length_cons]
      push_cast
      omega
    rw [if_neg hcond]
    have hlen : ((a :: t).length : Int) + -1 - 0 + 1 = ((a :: t).length : Int) := by
      omega
    rw [hlen]
    simp

/-- C5: the dead-letter queue is a stack per source topic: pushing
record A then record B under the same topic makes GetMessages return
the record of B strictly before the record of A (B is newest). -/
theorem C5_dlq_newest_first :
    ∀ (st : RedisState) (topic : String) (p1 o1 p2 o2 : Int)
      (A B : JVal) (e1 e2 : String) (t1 t2 : Int),
      GetMessages
        (PushMessage (PushMessage st topic p1 o1 A e1 t1) topic p2 o2 B e2 t2)
        topic 0 (-1)
      = dlqRecord topic p2 o2 B e2 t2
          :: dlqRecord topic p1 o1 A e1 t1 :: st (dlqKey topic) := by
  intro st topic p1 o1 p2 o2 A B e1 e2 t1 t2
  unfold GetMessages PushMessage lpush
  rw [lrange_all]
  simp

/-- C6: PushMessage embeds the handed-in payload unchanged as the
payload field of the stored dead-letter record, so re-decoding the
stored record reproduces the original envelope structure. -/
theorem C6_dlq_payload_roundtrip :
    ∀ (st : RedisState) (topic : String) (part offset : Int)
      (payload : JVal) (errorMsg : String) (now : Int),
      PushMessage st topic part offset payload errorMsg now (dlqKey topic)
        = dlqRecord topic part offset payload errorMsg now
            :: st (dlqKey topic)
      ∧ getField (dlqRecord topic part offset payload errorMsg now)
          "payload" = some payload := by
  intro st topic part offset payload errorMsg now
  constructor
  · unfold PushMessage lpush
    simp
  · rfl

/-- All stored reviews carry a rating in the closed interval 1..5. -/
def ratingInv (db : List ProductReview) : Prop :=
  ∀ r ∈ db, 1 ≤ r.rating ∧ r.rating ≤ 5

/-- C9: the rating range invariant holds of the empty table and is
preserved by UpsertProductReview on every input — an upsert whose
rating lies outside 1..5 fails the schema CHECK and leaves the table
unchanged, so no stored row can violate the invariant. -/
theorem C9_rating_invariant :
    ratingInv []
    ∧ ∀ (db : List ProductReview) (rv : ProductReview),
        ratingInv db → ratingInv (applyUpsertProductReview db rv) := by
  constructor
  · intro r hr
    exact absurd hr (by simp)
  · intro db rv hinv
    unfold applyUpsertProductReview UpsertProductReview
    by_cases hbad : (rv.rating < 1 || 5 < rv.rating) = true
    · rw [if_pos hbad]
      exact hinv
    · rw [if_neg hbad]
      have hrv : 1 ≤ rv.rating ∧ rv.rating ≤ 5 := by
        simp at hbad
        omega
      intro r hmem
      rcases mem_upsertBy_cases db r hmem with hdb | hrx | ⟨r₀, _, hupd⟩
      · exact hinv r hdb
      · rw [hrx]
        exact hrv
      · rw [hupd]
        exact hrv

/-- C9 witness: a review with rating 6 cannot corrupt the table — the
upsert is rejected and the (empty) table still satisfies the
invariant. -/
theorem C9_rating_invariant_witness :
    ratingInv (applyUpsertProductReview []
      ⟨"r1", "p", "u", 6, "bad", 0, 0⟩) :=
  C9_rating_invariant.2 [] ⟨"r1", "p", "u", 6, "bad", 0, 0⟩
    (by intro r hr; exact absurd hr (by simp))

/-- C4: UpsertInventory is additive rather than overwriting: for a
stored sku the quantity becomes old + delta, a new sku inserts a row
with quantity = delta; adjusting the same sku by 5 and then -2 leaves
initial + 3, and applying the same adjustment twice adds twice the
delta. -/
theorem C4_inventory_additive :
    (∀ (db : List Inventory) (inv r₀ : Inventory),
        (db.map (fun r => r.sku)).Nodup → r₀ ∈ db → r₀.sku = inv.sku →
        ∀ r ∈ UpsertInventory db inv, r.sku = inv.sku →
          r.quantity = r₀.quantity + inv.quantity)
    ∧ (∀ (db : List Inventory) (inv : Inventory),
        (∀ r ∈ db, ¬ r.sku = inv.sku) →
          UpsertInventory db inv = db ++ [inv])
    ∧ (∀ (db : List Inventory) (r₀ : Inventory) (t1 t2 : Int),
        (db.map (fun r => r.sku)).Nodup → r₀ ∈ db → r₀.sku = "S1" →
        ∀ r ∈ UpsertInventory (UpsertInventory db ⟨"S1", 5, t1⟩)
            ⟨"S1", -2, t2⟩,
          r.sku = "S1" → r.quantity = r₀.quantity + 3)
    ∧ (∀ (db : List Inventory) (inv r₀ : Inventory),
        (db.map (fun r => r.sku)).Nodup → r₀ ∈ db → r₀.sku = inv.sku →
        ∀ r ∈ UpsertInventory (UpsertInventory db inv) inv,
          r.sku = inv.sku →
            r.quantity = r₀.quantity + 2 * inv.quantity) := by
  have hkey : ∀ (inv r : Inventory), (updInventory r inv).sku = r.sku :=
    fun _ _ => rfl
  have main : ∀ (db : List Inventory) (inv r₀ : Inventory),
      (db.map (fun r => r.sku)).Nodup → r₀ ∈ db → r₀.sku = inv.sku →
      ∀ r ∈ UpsertInventory db inv, r.sku = inv.sku →
        r.quantity = r₀.quantity + inv.quantity := by
    intro db inv r₀ hnd hr₀ hk₀ r hmem hk
    unfold UpsertInventory at hmem
    rcases mem_upsertBy_elim db r hmem hk with ⟨_, hnone⟩ |
      ⟨r₁, hr₁, hk₁, hupd⟩
    · exact absurd hk₀ (hnone r₀ hr₀)
    · have hr₁₀ : r₁ = r₀ :=
        key_inj_of_nodup (fun r => r.sku) db hnd r₁ hr₁ r₀ hr₀
          (hk₁.trans hk₀.symm)
      rw [hupd, hr₁₀]
      rfl
  have hmemnext : ∀ (db : List Inventory) (inv r₀ : Inventory),
      r₀ ∈ db → r₀.sku = inv.sku →
      updInventory r₀ inv ∈ UpsertInventory db inv := by
    intro db inv r₀ hr₀ hk₀
    unfold UpsertInventory
    exact mem_upsertBy_intro db r₀ hr₀ hk₀
  have hnodupnext : ∀ (db : List Inventory) (inv : Inventory),
      (db.map (fun r => r.sku)).Nodup →
      ((UpsertInventory db inv).map (fun r => r.sku)).Nodup := by
    intro db inv hnd
    unfold UpsertInventory
    exact nodup_key_upsertBy (fun r => rfl) db hnd
  refine ⟨main, ?_, ?_, ?_⟩
  · intro db inv h
    unfold UpsertInventory
    exact upsertBy_insert db h
  · intro db r₀ t1 t2 hnd hr₀ hk₀ r hmem hk
    have h1 := hmemnext db ⟨"S1", 5, t1⟩ r₀ hr₀ hk₀
    have h2 := main (UpsertInventory db ⟨"S1", 5, t1⟩) ⟨"S1", -2, t2⟩
      (updInventory r₀ ⟨"S1", 5, t1⟩) (hnodupnext db _ hnd) h1
      (by rw [hkey]; exact hk₀) r hmem hk
    rw [h2]
    show r₀.quantity + 5 + -2 = r₀.quantity + 3
    omega
  · intro db inv r₀ hnd hr₀ hk₀ r hmem hk
    have h1 := hmemnext db inv r₀ hr₀ hk₀
    have h2 := main (UpsertInventory db inv) inv (updInventory r₀ inv)
      (hnodupnext db inv hnd) h1 (by rw [hkey]; exact hk₀) r hmem hk
    rw [h2]
    show r₀.quantity + inv.quantity + inv.quantity
      = r₀.quantity + 2 * inv.quantity
    omega

/-- C4 witness: starting from sku S1 at quantity 10, adjusting by 5 and
then -2 leaves the stored quantity at 13 = 10 + 3. -/
theorem C4_inventory_additive_witness :
    (Inventory.mk "S1" 13 2).quantity
      = (Inventory.mk "S1" 10 0).quantity + 3 :=
  C4_inventory_additive.2.2.1 [⟨"S1", 10, 0⟩] ⟨"S1", 10, 0⟩ 1 2
    (by decide) (by decide) rfl ⟨"S1", 13, 2⟩ (by decide) rfl

/-- C3 counterexample: when a row with the key pre-exists with a
different created_at, applying the same user record twice leaves one
row whose created_at is the pre-existing one, not the record's — the
stored row does not equal the last applied record in every field. -/
theorem C3_counterexample :
    UpsertUser (UpsertUser [⟨"u1", "A", "a@x.com", 1, 1⟩]
        ⟨"u1", "B", "b@x.com", 2, 2⟩) ⟨"u1", "B", "b@x.com", 2, 2⟩
      = [⟨"u1", "B", "b@x.com", 1, 2⟩]
    ∧ User.mk "u1" "B" "b@x.com" 1 2 ≠ User.mk "u1" "B" "b@x.com" 2 2 :=
  ⟨by decide, by decide⟩

/-- C3 (amended): under distinct primary keys, each of the four
overwrite upserts applied twice with an identical record leaves the
table as after one application (the second application is a no-op) and
exactly one stored row carries the record's key; that row's mutable
fields equal the last applied record, and it equals the record in
every field whenever no row with that key pre-existed (when one did,
its created_at survives — for Payment every non-key field is mutable,
so the stored row always equals the record in full). -/
theorem C3_upsert_idempotent :
    (∀ (db : List User) (u : User),
       (db.map (fun r => r.user_id)).Nodup →
       UpsertUser (UpsertUser db u) u = UpsertUser db u
       ∧ ((UpsertUser db u).filter
            (fun r => r.user_id == u.user_id)).length = 1
       ∧ (∀ r ∈ UpsertUser db u, r.user_id = u.user_id →
            r.name = u.name ∧ r.email = u.email
              ∧ r.updated_at = u.updated_at)
       ∧ ((∀ r ∈ db, ¬ r.user_id = u.user_id) →
            ∀ r ∈ UpsertUser db u, r.user_id = u.user_id → r = u))
    ∧ (∀ (uk : List String) (db db2 : List Order) (o : Order),
       (db.map (fun r => r.order_id)).Nodup →
       UpsertOrder uk db o = Except.ok db2 →
       UpsertOrder uk db2 o = Except.ok db2
       ∧ (db2.filter (fun r => r.order_id == o.order_id)).length = 1
       ∧ (∀ r ∈ db2, r.order_id = o.order_id →
            r.user_id = o.user_id ∧ r.total = o.total
              ∧ r.status = o.status ∧ r.updated_at = o.updated_at)
       ∧ ((∀ r ∈ db, ¬ r.order_id = o.order_id) →
            ∀ r ∈ db2, r.order_id = o.order_id → r = o))
    ∧ (∀ (db : List Payment) (p : Payment),
       (db.map (fun r => r.order_id)).Nodup →
       UpsertPayment (UpsertPayment db p) p = UpsertPayment db p
       ∧ ((UpsertPayment db p).filter
            (fun r => r.order_id == p.order_id)).length = 1
       ∧ (∀ r ∈ UpsertPayment db p, r.order_id = p.order_id → r = p))
    ∧ (∀ (db db2 : List ProductReview) (rv : ProductReview),
       (db.map (fun r => r.review_id)).Nodup →
       UpsertProductReview db rv = Except.ok db2 →
       UpsertProductReview db2 rv = Except.ok db2
       ∧ (db2.filter (fun r => r.review_id == rv.review_id)).length = 1
       ∧ (∀ r ∈ db2, r.review_id = rv.review_id →
            r.product_name = rv.product_name ∧ r.username = rv.username
              ∧ r.rating = rv.rating ∧ r.remarks = rv.remarks
              ∧ r.updated_at = rv.updated_at)
       ∧ ((∀ r ∈ db, ¬ r.review_id = rv.review_id) →
            ∀ r ∈ db2, r.review_id = rv.review_id → r = rv)) := by
  refine ⟨?_, ?_, ?_, ?_⟩
  · -- users
    intro db u hnd
    refine ⟨upsertBy_idem (fun r => rfl) (fun r => rfl) rfl db,
      count_key_upsertBy (fun r => rfl) db hnd, ?_, ?_⟩
    · intro r hmem hk
      rcases mem_upsertBy_elim db r hmem hk with ⟨hrx, _⟩ |
        ⟨r₀, _, _, hupd⟩
      · rw [hrx]
        exact ⟨rfl, rfl, rfl⟩
      · rw [hupd]
        exact ⟨rfl, rfl, rfl⟩
    · intro hfresh r hmem hk
      rcases mem_upsertBy_elim db r hmem hk with ⟨hrx, _⟩ |
        ⟨r₀, hr₀, hk₀, _⟩
      · exact hrx
      · exact absurd hk₀ (hfresh r₀ hr₀)
  · -- orders
    intro uk db db2 o hnd hok
    unfold UpsertOrder at hok
    by_cases hfk : uk.contains o.user_id = true
    · rw [if_pos hfk] at hok
      have hdb2 : db2 = upsertBy (fun r => r.order_id) updOrder db o := by
        cases hok
        rfl
      subst hdb2
      refine ⟨?_, count_key_upsertBy (fun r => rfl) db hnd, ?_, ?_⟩
      · unfold UpsertOrder
        rw [if_pos hfk,
          upsertBy_idem (fun r => rfl) (fun r => rfl) rfl db]
      · intro r hmem hk
        rcases mem_upsertBy_elim db r hmem hk with ⟨hrx, _⟩ |
          ⟨r₀, _, _, hupd⟩
        · rw [hrx]
          exact ⟨rfl, rfl, rfl, rfl⟩
        · rw [hupd]
          exact ⟨rfl, rfl, rfl, rfl⟩
      · intro hfresh r hmem hk
        rcases mem_upsertBy_elim db r hmem hk with ⟨hrx, _⟩ |
          ⟨r₀, hr₀, hk₀, _⟩
        · exact hrx
        · exact absurd hk₀ (hfresh r₀ hr₀)
    · rw [if_neg hfk] at hok
      simp at hok
  · -- payments
    intro db p hnd
    refine ⟨upsertBy_idem (fun r => rfl) (fun r => rfl) rfl db,
      count_key_upsertBy (fun r => rfl) db hnd, ?_⟩
    intro r hmem hk
    rcases mem_upsertBy_elim db r hmem hk with ⟨hrx, _⟩ |
      ⟨r₀, _, hk₀, hupd⟩
    · exact hrx
    · rw [hupd]
      cases p with
      | mk oid st am se up =>
        cases r₀ with
        | mk oid0 st0 am0 se0 up0 =>
          simp only [updPayment]
          simp only at hk₀
          rw [hk₀]
  · -- product reviews
    intro db db2 rv hnd hok
    unfold UpsertProductReview at hok
    by_cases hbad : (rv.rating < 1 || 5 < rv.rating) = true
    · rw [if_pos hbad] at hok
      simp at hok
    · rw [if_neg hbad] at hok
      have hdb2 : db2 = upsertBy (fun r => r.review_id) updReview db rv := by
        cases hok
        rfl
      subst hdb2
      refine ⟨?_, count_key_upsertBy (fun r => rfl) db hnd, ?_, ?_⟩
      · unfold UpsertProductReview
        rw [if_neg hbad,
          upsertBy_idem (fun r => rfl) (fun r => rfl) rfl db]
      · intro r hmem hk
        rcases mem_upsertBy_elim db r hmem hk with ⟨hrx, _⟩ |
          ⟨r₀, _, _, hupd⟩
        · rw [hrx]
          exact ⟨rfl, rfl, rfl, rfl, rfl⟩
        · rw [hupd]
          exact ⟨rfl, rfl, rfl, rfl, rfl⟩
      · intro hfresh r hmem hk
        rcases mem_upsertBy_elim db r hmem hk with ⟨hrx, _⟩ |
          ⟨r₀, hr₀, hk₀, _⟩
        · exact hrx
        · exact absurd hk₀ (hfresh r₀ hr₀)

/-- C3 witness: inserting a fresh user twice stores it once, the second
application changing nothing. -/
theorem C3_upsert_idempotent_witness :
    UpsertUser (UpsertUser [] ⟨"u1", "A", "a@x.com", 1, 1⟩)
        ⟨"u1", "A", "a@x.com", 1, 1⟩
      = UpsertUser [] ⟨"u1", "A", "a@x.com", 1, 1⟩ :=
  (C3_upsert_idempotent.1 [] ⟨"u1", "A", "a@x.com", 1, 1⟩ (by decide)).1

/-- C10: for User, Order and ProductReview, the update path overwrites
only the mutable fields plus updated_at; the stored created_at of a
pre-existing row survives and the incoming record's CreatedAt is
ignored there. -/
theorem C10_created_at_preserved :
    (∀ (db : List User) (u r₀ : User),
       (db.map (fun r => r.user_id)).Nodup → r₀ ∈ db →
       r₀.user_id = u.user_id →
       ∀ r ∈ UpsertUser db u, r.user_id = u.user_id →
         r.created_at = r₀.created_at ∧ r.name = u.name
           ∧ r.email = u.email ∧ r.updated_at = u.updated_at)
    ∧ (∀ (uk : List String) (db db2 : List Order) (o r₀ : Order),
       (db.map (fun r => r.order_id)).Nodup → r₀ ∈ db →
       r₀.order_id = o.order_id →
       UpsertOrder uk db o = Except.ok db2 →
       ∀ r ∈ db2, r.order_id = o.order_id →
         r.created_at = r₀.created_at ∧ r.user_id = o.user_id
           ∧ r.total = o.total ∧ r.status = o.status
           ∧ r.updated_at = o.updated_at)
    ∧ (∀ (db db2 : List ProductReview) (rv r₀ : ProductReview),
       (db.map (fun r => r.review_id)).Nodup → r₀ ∈ db →
       r₀.review_id = rv.review_id →
       UpsertProductReview db rv = Except.ok db2 →
       ∀ r ∈ db2, r.review_id = rv.review_id →
         r.created_at = r₀.created_at ∧ r.product_name = rv.product_name
           ∧ r.username = rv.username ∧ r.rating = rv.rating
           ∧ r.remarks = rv.remarks ∧ r.updated_at = rv.updated_at) := by
  refine ⟨?_, ?_, ?_⟩
  · intro db u r₀ hnd hr₀ hk₀ r hmem hk
    rcases mem_upsertBy_elim db r hmem hk with ⟨_, hnone⟩ |
      ⟨r₁, hr₁, hk₁, hupd⟩
    · exact absurd hk₀ (hnone r₀ hr₀)
    · have hr₁₀ : r₁ = r₀ :=
        key_inj_of_nodup (fun r => r.user_id) db hnd r₁ hr₁ r₀ hr₀
          (hk₁.trans hk₀.symm)
      rw [hupd, hr₁₀]
      exact ⟨rfl, rfl, rfl, rfl⟩
  · intro uk db db2 o r₀ hnd hr₀ hk₀ hok r hmem hk
    unfold UpsertOrder at hok
    by_cases hfk : uk.contains o.user_id = true
    · rw [if_pos hfk] at hok
      have hdb2 : db2 = upsertBy (fun r => r.order_id) updOrder db o := by
        cases hok
        rfl
      subst hdb2
      rcases mem_upsertBy_elim db r hmem hk with ⟨_, hnone⟩ |
        ⟨r₁, hr₁, hk₁, hupd⟩
      · exact absurd hk₀ (hnone r₀ hr₀)
      · have hr₁₀ : r₁ = r₀ :=
          key_inj_of_nodup (fun r => r.order_id) db hnd r₁ hr₁ r₀ hr₀
            (hk₁.trans hk₀.symm)
        rw [hupd, hr₁₀]
        exact ⟨rfl, rfl, rfl, rfl, rfl⟩
    · rw [if_neg hfk] at hok
      simp at hok
  · intro db db2 rv r₀ hnd hr₀ hk₀ hok r hmem hk
    unfold UpsertProductReview at hok
    by_cases hbad : (rv.rating < 1 || 5 < rv.rating) = true
    · rw [if_pos hbad] at hok
      simp at hok
    · rw [if_neg hbad] at hok
      have hdb2 : db2 = upsertBy (fun r => r.review_id) updReview db rv := by
        cases hok
        rfl
      subst hdb2
      rcases mem_upsertBy_elim db r hmem hk with ⟨_, hnone⟩ |
        ⟨r₁, hr₁, hk₁, hupd⟩
      · exact absurd hk₀ (hnone r₀ hr₀)
      · have hr₁₀ : r₁ = r₀ :=
          key_inj_of_nodup (fun r => r.review_id) db hnd r₁ hr₁ r₀ hr₀
            (hk₁.trans hk₀.symm)
        rw [hupd, hr₁₀]
        exact ⟨rfl, rfl, rfl, rfl, rfl, rfl⟩

/-- C10 witness: updating user u1 with a record whose CreatedAt is 2
leaves the stored created_at at the pre-existing value 1 while name,
email and updated_at take the incoming values. -/
theorem C10_created_at_preserved_witness :
    (User.mk "u1" "B" "b@x.com" 1 2).created_at
        = (User.mk "u1" "A" "a@x.com" 1 1).created_at
    ∧ (User.mk "u1" "B" "b@x.com" 1 2).name
        = (User.mk "u1" "B" "b@x.com" 2 2).name
    ∧ (User.mk "u1" "B" "b@x.com" 1 2).email
        = (User.mk "u1" "B" "b@x.com" 2 2).email
    ∧ (User.mk "u1" "B" "b@x.com" 1 2).updated_at
        = (User.mk "u1" "B" "b@x.com" 2 2).updated_at :=
  C10_created_at_preserved.1 [⟨"u1", "A", "a@x.com", 1, 1⟩]
    ⟨"u1", "B", "b@x.com", 2, 2⟩ ⟨"u1", "A", "a@x.com", 1, 1⟩
    (by decide) (by decide) rfl ⟨"u1", "B", "b@x.com", 1, 2⟩
    (by decide) rfl

/-- C1: processMessage commits the partition offset for a message if
and only if the envelope has reached a terminal outcome — successful
persistence or dead-lettering (the dead-letter push being best-effort
either way) — and a panic on an unchecked type assertion aborts the
invocation with no commit and no state change, so no execution commits
an offset before a terminal outcome is reached: an uncommitted message
is redelivered on restart, which is at-least-once delivery. -/
theorem C1_commit_after_terminal :
    ∀ (tryParse : String → Option Int) (now : Int) (dlqUp : Bool)
      (st : ProcState) (msg : KMessage),
      ((processMessage tryParse now dlqUp st msg).committed = true ↔
        ((processMessage tryParse now dlqUp st msg).outcome
            = ProcOutcome.success
          ∨ (processMessage tryParse now dlqUp st msg).outcome
            = ProcOutcome.deadLettered))
      ∧ ((processMessage tryParse now dlqUp st msg).outcome
            = ProcOutcome.panicked →
          (processMessage tryParse now dlqUp st msg).committed = false
            ∧ (processMessage tryParse now dlqUp st msg).state = st) := by
  intro tryParse now dlqUp st msg
  unfold processMessage
  cases hp : ParseEvent msg.value with
  | error e => simp
  | ok event =>
    dsimp only
    cases ht : jlookup event "type" with
    | none => simp
    | some v =>
      cases v with
      | str t =>
        dsimp only
        cases hd : processEventByType tryParse now st.store event with
        | ok store2 => simp
        | err e => simp
        | panic => simp
      | num n => simp
      | bool b => simp
      | null => simp
      | arr elems => simp
      | obj fields => simp

/-- C1 witness: a message whose bytes are not a valid JSON object is
dead-lettered and only then committed — the terminal outcome precedes
the offset advance. -/
theorem C1_commit_after_terminal_witness :
    (processMessage (fun _ => none) 0 true
        ⟨⟨[], [], [], [], []⟩, fun _ => []⟩
        ⟨"events", 0, 7, "not json", none⟩).outcome
      = ProcOutcome.success
    ∨ (processMessage (fun _ => none) 0 true
        ⟨⟨[], [], [], [], []⟩, fun _ => []⟩
        ⟨"events", 0, 7, "not json", none⟩).outcome
      = ProcOutcome.deadLettered :=
  ((C1_commit_after_terminal (fun _ => none) 0 true
      ⟨⟨[], [], [], [], []⟩, fun _ => []⟩
      ⟨"events", 0, 7, "not json", none⟩).1).mp rfl

end Pipeline
